import Mathlib

/-!
Verification of the "Updates" test type of the TFBVerifier repository
(`src/test_type/query/updates.rs`), as a shallow embedding in Lean 4.

Machine integers are modelled as `Nat` with explicit `% 2 ^ 32` where u32
overflow matters.  The two `f32` multiplications in `Updates::verify_updates`
(`expected_updates as f32 * 0.90` and `* 0.95`) are modelled exactly with
dyadic rationals represented as mantissa/exponent pairs of natural numbers,
using IEEE-754 round-to-nearest, ties-to-even at 24 significand bits, followed
by Rust's saturating truncation `as i32`.

External collaborators (the HTTP transport, the `Messages` sink internals, the
database backend, the `Query` trait helpers and `num_cpus`) are not part of
the source file; they are modelled as explicit parameters, following the
interface contracts of the specification.
-/

/-- Size of the u32 value space; u32 arithmetic wraps modulo this. -/
def U32 : Nat := 2 ^ 32

/-- Wrapping u32 subtraction `a - b` for `a, b < U32` (release-mode Rust
`u32` subtraction semantics). -/
def u32sub (a b : Nat) : Nat := (a + U32 - b) % U32

/-- The value of `index as i32` for a Rust `usize` index: reduce mod `2 ^ 32`
and reinterpret as a signed 32-bit value. -/
def i32ofNat (n : Nat) : Int :=
  if n % U32 < 2 ^ 31 then ((n % U32 : Nat) : Int)
  else ((n % U32 : Nat) : Int) - (U32 : Int)

/-- Severity of an entry in the `Messages` sink: the sink offers exactly
`error` and `warning`. -/
inductive Severity where
  | error
  | warning
deriving DecidableEq

/-- The texts the Updates verifier ever formats into a message, with the
numbers interpolated by `format!` kept as structured payloads.  `transport`
is the record left by the body-fetch collaborator on a transport failure and
`collab` stands for texts produced by other external collaborators. -/
inductive MText where
  | noUpdates
  | tooFewUpdates (updates expected : Nat)
  | tooFewUpdatesWarn (updates expected : Nat)
  | tooFewRows (updated expected : Nat)
  | transport (url : String)
  | collab (tag : String)
deriving DecidableEq

/-- One entry of the `Messages` sink: a severity, the formatted text and the
short label passed to `messages.error` / `messages.warning`. -/
structure Message where
  severity : Severity
  text : MText
  label : String
deriving DecidableEq

/-- `messages.error(text, label)`. -/
def Message.mkError (t : MText) (l : String) : Message := ⟨Severity.error, t, l⟩

/-- `messages.warning(text, label)`. -/
def Message.mkWarning (t : MText) (l : String) : Message := ⟨Severity.warning, t, l⟩

/-- A snapshot of the `World` table as returned by
`get_all_from_world_table`: a finite mapping from i32 row identifier to row
content, modelled as an association list. -/
def Snapshot : Type := List (Int × Int)

/-- Number of rows in a snapshot (`.len()`). -/
def Snapshot.size (s : Snapshot) : Nat := List.length s

/-- Row lookup (`.get(&k)`). -/
def Snapshot.get (s : Snapshot) (k : Int) : Option Int := List.lookup k s

/-! ### Exact model of the f32 tier boundaries

`(expected_updates as f32 * 0.90) as i32` is computed exactly:
a positive binary floating point number is a mantissa/exponent pair, and
round-to-nearest-even at 24 significand bits only ever inspects the mantissa.
-/

/-- Fuel-driven binary length: `bitlen fuel n` is the number of binary digits
of `n`, correct whenever `n < 2 ^ fuel`. -/
def bitlen : Nat → Nat → Nat
  | 0, _ => 0
  | fuel + 1, n => if n = 0 then 0 else bitlen fuel (n / 2) + 1

/-- Round a natural number to at most 24 significant bits,
round-to-nearest, ties-to-even.  Returns `(m, s)` with value `m * 2 ^ s`;
for `n < 2 ^ 24` the value is exact.  This is exactly how IEEE-754 binary32
rounds a positive real whose significant digits are the digits of `n`. -/
def round24 (n : Nat) : Nat × Nat :=
  let k := bitlen 64 n
  if k ≤ 24 then (n, 0)
  else
    let s := k - 24
    let q := n / 2 ^ s
    let r := n % 2 ^ s
    let m :=
      if r < 2 ^ (s - 1) then q
      else if 2 ^ (s - 1) < r then q + 1
      else if q % 2 = 0 then q else q + 1
    (m, s)

/-- The 24-bit significand of the f32 nearest to `num / den`, for
`1/2 ≤ num / den < 1`: round-to-nearest-even of `num * 2 ^ 24 / den`.
The f32 value of the literal is then `constMant num den / 2 ^ 24`. -/
def constMant (num den : Nat) : Nat :=
  let p := num * 2 ^ 24
  let q := p / den
  let r := p % den
  if 2 * r < den then q
  else if den < 2 * r then q + 1
  else if q % 2 = 0 then q else q + 1

/-- Significand of the f32 literal `0.90` (its value is `c90m / 2 ^ 24`). -/
def c90m : Nat := constMant 9 10

/-- Significand of the f32 literal `0.95` (its value is `c95m / 2 ^ 24`). -/
def c95m : Nat := constMant 19 20

/-- The i32 tier boundary `(expected as f32 * c) as i32` where `c` is an f32
constant in `[1/2, 1)` with significand `cm`:
round `expected` to f32 (`round24`), multiply the significands exactly, round
the product back to 24 bits, then truncate toward zero with Rust's saturating
`as i32` conversion.  All quantities are nonnegative, so saturation only
clips at `i32::MAX`. -/
def updateBound (expected cm : Nat) : Nat :=
  let ef := round24 expected
  let pr := round24 (ef.1 * cm)
  let t : Int := (pr.2 : Int) + (ef.2 : Int) - 24
  let v := if 0 ≤ t then pr.1 * 2 ^ t.toNat else pr.1 / 2 ^ (-t).toNat
  min v 2147483647

/-! ### The two delta checks (`Updates::verify_updates_count`,
`Updates::verify_updates`) -/

/-- `Updates::verify_updates_count`, lines 113-147.  The two stateful reads
`get_count_of_rows_updated_for_table("world", 1)` that bracket the blocking
load issuance are passed in as `before` and `after` (the load issuance itself
appends nothing: `issue_multi_query_requests` is an opaque collaborator).
`updated = after - before` is u32 subtraction; an error labelled
"Too Few Rows" is recorded exactly when `updated < expected_updates`. -/
def verify_updates_count (before after expected_updates : Nat)
    (messages : List Message) : List Message :=
  let updated := u32sub after before
  if updated < expected_updates then
    messages ++ [Message.mkError (MText.tooFewRows updated expected_updates) ("Too Few Rows")]
  else
    messages

/-- The counting loop of `Updates::verify_updates`, lines 172-181: for
`index` in `0..worlds_before.len()`, count `index` when the key `index as i32`
is present in both snapshots with differing content. -/
def countUpdates (worlds_before worlds_after : Snapshot) : Nat :=
  (List.range worlds_before.size).countP (fun index =>
    match worlds_before.get (i32ofNat index), worlds_after.get (i32ofNat index) with
    | some b, some a => decide (b ≠ a)
    | _, _ => false)

/-- The three-tier classification of `Updates::verify_updates`,
lines 183-195, applied to the counted updates and the (u32) expected count:
`updates == 0` records the "No Updates" error; otherwise
`updates <= (expected as f32 * 0.90) as i32` records the "Too Few Updates"
error; otherwise `updates <= (expected as f32 * 0.95) as i32` records the
"Too Few Updates" warning; otherwise nothing is recorded. -/
def classifyUpdates (updates expected_updates : Nat) : List Message :=
  if updates = 0 then
    [Message.mkError MText.noUpdates ("No Updates")]
  else if updates ≤ updateBound expected_updates c90m then
    [Message.mkError (MText.tooFewUpdates updates expected_updates) ("Too Few Updates")]
  else if updates ≤ updateBound expected_updates c95m then
    [Message.mkWarning (MText.tooFewUpdatesWarn updates expected_updates) ("Too Few Updates")]
  else
    []

/-- `Updates::verify_updates`, lines 152-196.  The two stateful snapshots
`get_all_from_world_table()` bracketing the load issuance are passed in as
`worlds_before` / `worlds_after`; `expected_updates = concurrency *
repetitions` is u32 multiplication (the load issuance itself uses the literal
`1` for repetitions and appends nothing). -/
def verify_updates (worlds_before worlds_after : Snapshot)
    (concurrency repetitions : Nat) (messages : List Message) : List Message :=
  let expected_updates := concurrency * repetitions % U32
  messages ++ classifyUpdates (countUpdates worlds_before worlds_after) expected_updates

/-! ### Command builder (`Updates::get_wrk_command`) and benchmark commands -/

/-- `Updates::get_wrk_command`, lines 198-218.  `numCpus` is the value of
`num_cpus::get() as u32`, a reading of the host's available parallelism that
the source takes from an external crate. -/
def get_wrk_command (numCpus : Nat) (url : String) (duration concurrency : Nat) :
    List String :=
  ["wrk", "-H", "Host: tfb-server", "-H",
   "Accept: application/json,text/html;q=0.9,application/xhtml+xml;q=0.9,application/xml;q=0.8,*/*;q=0.7",
   "-H", "Connection: keep-alive", "--latency",
   "-d", toString duration,
   "-c", toString concurrency,
   "--timeout", "8",
   "-t", toString (min concurrency numCpus),
   url]

/-- The `BenchmarkCommands` record assembled by
`retrieve_benchmark_commands`. -/
structure BenchmarkCommands where
  primer_command : List String
  warmup_command : List String
  benchmark_commands : List (List String)
deriving DecidableEq

/-- `self.concurrency_levels.iter().max()`: `none` on an empty list. -/
def iterMax : List Nat → Option Nat
  | [] => none
  | x :: xs =>
    some (match iterMax xs with
      | none => x
      | some m => max x m)

/-- `Updates::retrieve_benchmark_commands`, lines 17-31.  The `.unwrap()` on
`concurrency_levels.iter().max()` panics on an empty level list; the panic is
modelled as `none`. -/
def retrieve_benchmark_commands (numCpus : Nat) (concurrency_levels : List Nat)
    (url : String) : Option BenchmarkCommands :=
  match iterMax concurrency_levels with
  | none => none
  | some m =>
    some
      { primer_command := get_wrk_command numCpus url 5 8
        warmup_command := get_wrk_command numCpus url 15 m
        benchmark_commands :=
          concurrency_levels.map (fun concurrency => get_wrk_command numCpus url 15 concurrency) }

/-! ### The orchestrator (`Updates::verify`)

The orchestrator drives external collaborators: the HTTP transport
(`get_response_headers` / `get_response_body`), the `Query`-trait helpers
(`translate_query_count`, `verify_headers`, `verify_with_length`) and the
database collaborator.  Their behaviour during one `verify` call is an
explicit environment.  The stateful database reads performed inside the
delta-check block triggered by a test case are recorded in the environment,
indexed by that test case. -/

/-- A typed transport-layer failure (`VerifierError` of the transport). -/
inductive TransportError where
  | failure (code : Nat)
deriving DecidableEq

/-- Behaviour of the external collaborators during one `verify` call. -/
structure VerifyEnv where
  /-- Result of `get_response_headers(&url, &mut messages)`. -/
  fetchHeaders : Except TransportError (List String)
  /-- Transport result of the body fetch per requested URL. -/
  fetchBody : String → Except TransportError String
  /-- `translate_query_count(test_case, min, max)` of the `Query` trait. -/
  tqc : String → Nat → Nat → Nat
  /-- Messages appended by `verify_headers(.., ContentType::Json, ..)`. -/
  verifyHeadersMsgs : List Message
  /-- Messages appended by `verify_with_length(body, expected_length, ..)`. -/
  verifyWithLengthMsgs : String → Nat → List Message
  /-- Messages appended by the collaborator call `verify_queries_count`. -/
  verifyQueriesCountMsgs : List Message
  /-- Messages appended by the collaborator call `verify_rows_count`. -/
  verifyRowsCountMsgs : List Message
  /-- The pair of `get_count_of_rows_updated_for_table("world", 1)` readings
  bracketing the load issued inside `verify_updates_count`, indexed by the
  test case that triggered the delta block. -/
  counts : String → Nat × Nat
  /-- The pair of `get_all_from_world_table()` snapshots bracketing the load
  issued inside `verify_updates`, indexed by the triggering test case. -/
  worlds : String → Snapshot × Snapshot

/-- Modelled from the spec: `get_response_body` (`src/request.rs`, not under
`src/`).  The spec gives `fetchBody(url) -> Result<Bytes, TransportError>`;
the call site at line 62 of `updates.rs` takes a plain body (no `?`) while
passing `&mut messages`, so a transport failure is recorded as an entry in
`messages` and a default body is returned instead of propagating. -/
def get_response_body (fetch : String → Except TransportError String)
    (url : String) : String × List Message :=
  match fetch url with
  | Except.ok body => (body, [])
  | Except.error _ => ("", [Message.mkError (MText.transport url) ("Transport")])

/-- The fixed, ordered test-case set of `Updates::verify`, line 36. -/
def testCases : List String := ["2", "0", "foo", "501", ""]

/-- A record of one invocation of a database-delta check, with the arguments
the orchestrator passed to it. -/
inductive DbCall where
  | verifyQueriesCount (url table : String) (concurrency repetitions expected_queries : Nat)
  | verifyRowsCount (url table : String) (concurrency repetitions expected_rows margin : Nat)
  | verifyUpdatesCount (url table : String) (concurrency repetitions expected_updates : Nat)
  | verifyUpdates (url : String) (concurrency repetitions : Nat)
deriving DecidableEq

/-- The body of the per-test-case loop of `Updates::verify`, lines 58-103:
the messages it appends and the delta-check invocations it performs. -/
def caseResult (env : VerifyEnv) (concurrency expected_queries expected_rows expected_updates : Nat)
    (url tc : String) : List Message × List DbCall :=
  let expected_length := env.tqc tc 1 500
  let count_url := url ++ tc
  let fetched := get_response_body env.fetchBody count_url
  let lenMsgs := env.verifyWithLengthMsgs fetched.1 expected_length
  if expected_length = 500 then
    (fetched.2 ++ lenMsgs ++ env.verifyQueriesCountMsgs ++ env.verifyRowsCountMsgs
       ++ verify_updates_count (env.counts tc).1 (env.counts tc).2 expected_updates []
       ++ verify_updates (env.worlds tc).1 (env.worlds tc).2 concurrency 2 [],
     [DbCall.verifyQueriesCount (url ++ "20") ("world") concurrency 2 expected_queries,
      DbCall.verifyRowsCount (url ++ "20") ("world") concurrency 2 expected_rows 1,
      DbCall.verifyUpdatesCount (url ++ "20") ("world") concurrency 2 expected_updates,
      DbCall.verifyUpdates (url ++ "20") concurrency 2])
  else
    (fetched.2 ++ lenMsgs, [])

/-- Outcome of one `Updates::verify` call: a panic (`.unwrap()` of `None`),
a propagated typed transport failure (the `?` at line 54), or the
accumulated messages together with the delta-check invocations made. -/
inductive VerifyResult where
  | panicked
  | failed (e : TransportError)
  | ok (messages : List Message) (trace : List DbCall)
deriving DecidableEq

/-- The delta-check invocations of a `verify` outcome (empty when the run
aborted before or during the loop). -/
def traceOf : VerifyResult → List DbCall
  | VerifyResult.ok _ trace => trace
  | _ => []

/-- The messages of a completed `verify` outcome. -/
def messagesOf : VerifyResult → List Message
  | VerifyResult.ok messages _ => messages
  | _ => []

/-- `Updates::verify`, lines 33-106.  `repetitions = 2`, `concurrency` is the
maximal configured level (unwrap panics on an empty list, before the header
fetch), `expected_rows = 20 * repetitions * concurrency` in u32 arithmetic,
`expected_updates = expected_rows`, `expected_queries = expected_rows / 20`.
The header fetch propagates a transport failure with `?`; afterwards the
header policy check and the per-test-case loop only accumulate messages.
The raw header/body captures (`messages.headers`, `messages.body`) are
diagnostics of the external sink and are not error/warning entries. -/
def verify (env : VerifyEnv) (concurrency_levels : List Nat) (url : String) :
    VerifyResult :=
  match iterMax concurrency_levels with
  | none => VerifyResult.panicked
  | some concurrency =>
    let repetitions := 2
    let expected_rows := 20 * repetitions * concurrency % U32
    let expected_updates := expected_rows
    let expected_queries := expected_rows / 20
    match env.fetchHeaders with
    | Except.error e => VerifyResult.failed e
    | Except.ok _ =>
      let pieces := testCases.map
        (caseResult env concurrency expected_queries expected_rows expected_updates url)
      VerifyResult.ok (env.verifyHeadersMsgs ++ (pieces.map Prod.fst).flatten)
        ((pieces.map Prod.snd).flatten)

/-- Modelled from the spec: `translate_query_count` of the shared `Query`
trait (`src/test_type/query/mod.rs`, not under `src/`): numeric parse of the
test-case value with clamp into `[min, max]`, non-numeric input mapping to
`min`. -/
def translate_query_count (s : String) (mn mx : Nat) : Nat :=
  let digits := s.data
  let parsed : Option Nat :=
    if digits = [] then none
    else
      digits.foldl
        (fun acc c =>
          match acc with
          | none => none
          | some n => if c.isDigit then some (n * 10 + (c.toNat - 48)) else none)
        (some 0)
  match parsed with
  | some n => min mx (max mn n)
  | none => mn

/-! ### Spec-side definitions (for refinement statements)

These follow the words of the specification and the claims, to be compared
with the definitions above that embed the source. -/

/-- The exact value of the f32 boundary computation, as a single number:
`rval n` is the integer `m * 2 ^ s` represented by `round24 n`. -/
def rval (n : Nat) : Nat := (round24 n).1 * 2 ^ (round24 n).2

/-- The spec's three-tier message policy for `verify_updates`, stated with
the claims' tier guards: `U = 0` is the "No Updates" error tier;
`0 < U ≤ floor(E * 0.90)` the "Too Few Updates" error tier;
`floor(E * 0.90) < U ≤ floor(E * 0.95)` the warning tier; beyond that no
message, the tier boundaries being the source's truncating float-to-integer
conversion (`updateBound`). -/
def specUpdateMessage (E U : Nat) : List Message :=
  if U = 0 then
    [Message.mkError MText.noUpdates ("No Updates")]
  else if 0 < U ∧ U ≤ updateBound E c90m then
    [Message.mkError (MText.tooFewUpdates U E) ("Too Few Updates")]
  else if updateBound E c90m < U ∧ U ≤ updateBound E c95m then
    [Message.mkWarning (MText.tooFewUpdatesWarn U E) ("Too Few Updates")]
  else
    []

/-- The spec's notion of an updated row: the identifier is present in both
the before and the after snapshot, with differing content. -/
def updatedAt (worlds_before worlds_after : Snapshot) (k : Int) : Prop :=
  ∃ b a, worlds_before.get k = some b ∧ worlds_after.get k = some a ∧ b ≠ a

instance updatedAtDecidable (wb wa : Snapshot) (k : Int) :
    Decidable (updatedAt wb wa k) :=
  match hb : wb.get k, ha : wa.get k with
  | some b, some a =>
    if h : b = a then
      isFalse (fun ⟨b2, a2, hb2, ha2, hne⟩ => by
        rw [hb] at hb2
        rw [ha] at ha2
        cases hb2
        cases ha2
        exact hne h)
    else
      isTrue ⟨b, a, hb, ha, h⟩
  | none, _ =>
    isFalse (fun ⟨b2, a2, hb2, ha2, hne⟩ => by rw [hb] at hb2; cases hb2)
  | some _, none =>
    isFalse (fun ⟨b2, a2, hb2, ha2, hne⟩ => by rw [ha] at ha2; cases ha2)

/-- The spec's (claim C6's) reading of the update delta: the absolute
difference of the two point-in-time counts. -/
def absDelta (before after : Nat) : Nat := ((after : Int) - (before : Int)).natAbs

/-! ### Concrete collaborator environments used as evaluation inputs -/

/-- A trivial environment: headers fetch succeeds, every body fetch
succeeds, the translator returns `min`, and no collaborator records
messages. -/
def envTrivial : VerifyEnv where
  fetchHeaders := Except.ok []
  fetchBody := fun _ => Except.ok ("body")
  tqc := fun _ mn _ => mn
  verifyHeadersMsgs := []
  verifyWithLengthMsgs := fun _ _ => []
  verifyQueriesCountMsgs := []
  verifyRowsCountMsgs := []
  counts := fun _ => (0, 0)
  worlds := fun _ => ([], [])

/-- An environment whose header fetch succeeds but in which every body fetch
has a transport failure. -/
def envBodyFail : VerifyEnv :=
  { envTrivial with fetchBody := fun _ => Except.error (TransportError.failure 7) }

/-- An environment using the spec-modelled query-count translator (which
maps exactly the test case "501" to 500). -/
def envFull : VerifyEnv :=
  { envTrivial with tqc := translate_query_count }

/-- An environment whose header fetch has a transport failure. -/
def envHdrFail : VerifyEnv :=
  { envTrivial with fetchHeaders := Except.error (TransportError.failure 3) }

/-! ### Arithmetic facts about the f32 boundary model -/

theorem bitlen_zero (fuel : Nat) : bitlen fuel 0 = 0 := by
  cases fuel <;> simp [bitlen]

theorem bitlen_spec (fuel : Nat) : ∀ n : Nat, 0 < n → n < 2 ^ fuel →
    2 ^ (bitlen fuel n - 1) ≤ n ∧ n < 2 ^ bitlen fuel n := by
  induction fuel with
  | zero =>
    intro n hn hlt
    simp only [pow_zero] at hlt
    omega
  | succ f ih =>
    intro n hn hlt
    simp only [bitlen, if_neg (by omega : ¬ n = 0)]
    by_cases h2 : n / 2 = 0
    · have hn1 : n = 1 := by omega
      subst hn1
      simp [bitlen_zero]
    · have hpow : 2 ^ (f + 1) = 2 * 2 ^ f := by
        rw [pow_succ, Nat.mul_comm]
      have hdiv : n / 2 < 2 ^ f := by omega
      obtain ⟨h1, h2'⟩ := ih (n / 2) (Nat.pos_of_ne_zero h2) hdiv
      have hk1 : 1 ≤ bitlen f (n / 2) := by
        by_contra hc
        have : bitlen f (n / 2) = 0 := by omega
        rw [this] at h2'
        simp only [pow_zero] at h2'
        omega
      have hksucc : 2 ^ bitlen f (n / 2) = 2 * 2 ^ (bitlen f (n / 2) - 1) := by
        conv_lhs => rw [show bitlen f (n / 2) = (bitlen f (n / 2) - 1) + 1 by omega]
        rw [pow_succ, Nat.mul_comm]
      have hksucc2 : 2 ^ (bitlen f (n / 2) + 1) = 2 * 2 ^ bitlen f (n / 2) := by
        rw [pow_succ, Nat.mul_comm]
      have hmod := Nat.div_add_mod n 2
      have hm2 : n % 2 < 2 := Nat.mod_lt _ (by omega)
      constructor
      · simp only [Nat.add_sub_cancel]
        omega
      · omega

theorem round24_small (n : Nat) (hk : bitlen 64 n ≤ 24) : round24 n = (n, 0) := by
  simp [round24, hk]

theorem round24_large (n : Nat) (hk : ¬ bitlen 64 n ≤ 24) :
    round24 n =
      (if n % 2 ^ (bitlen 64 n - 24) < 2 ^ (bitlen 64 n - 24 - 1) then
         n / 2 ^ (bitlen 64 n - 24)
       else if 2 ^ (bitlen 64 n - 24 - 1) < n % 2 ^ (bitlen 64 n - 24) then
         n / 2 ^ (bitlen 64 n - 24) + 1
       else if n / 2 ^ (bitlen 64 n - 24) % 2 = 0 then
         n / 2 ^ (bitlen 64 n - 24)
       else n / 2 ^ (bitlen 64 n - 24) + 1,
       bitlen 64 n - 24) := by
  simp [round24, hk]

theorem rval_bounds (n : Nat) (hn : n < 2 ^ 64) :
    rval n * 2 ^ 24 ≤ n * 2 ^ 24 + n ∧ n * 2 ^ 24 ≤ rval n * 2 ^ 24 + n := by
  by_cases hk : bitlen 64 n ≤ 24
  · unfold rval
    rw [round24_small n hk]
    simp
  · have hn0 : 0 < n := by
      rcases Nat.eq_zero_or_pos n with h0 | h0
      · exfalso
        apply hk
        rw [h0, bitlen_zero]
        omega
      · exact h0
    obtain ⟨hlow, hhigh⟩ := bitlen_spec 64 n hn0 hn
    unfold rval
    rw [round24_large n hk]
    dsimp only
    have hsplit := Nat.div_add_mod n (2 ^ (bitlen 64 n - 24))
    have hrlt : n % 2 ^ (bitlen 64 n - 24) < 2 ^ (bitlen 64 n - 24) :=
      Nat.mod_lt _ (Nat.two_pow_pos _)
    set k := bitlen 64 n with hkdef
    set s := k - 24 with hsdef
    set q := n / 2 ^ s with hqdef
    set r := n % 2 ^ s with hrdef
    have hs1 : 1 ≤ s := by omega
    have hP : (2 : Nat) ^ s = 2 * 2 ^ (s - 1) := by
      conv_lhs => rw [show s = (s - 1) + 1 by omega]
      rw [pow_succ, Nat.mul_comm]
    have hkey : 2 ^ (s - 1) * 2 ^ 24 ≤ n := by
      calc 2 ^ (s - 1) * 2 ^ 24 = 2 ^ (s - 1 + 24) := (pow_add 2 _ _).symm
        _ = 2 ^ (k - 1) := by congr 1; omega
        _ ≤ n := hlow
    have hP24 : (2 : Nat) ^ s * 2 ^ 24 = 2 * (2 ^ (s - 1) * 2 ^ 24) := by
      rw [hP]
      ring
    rw [← hsplit] at hkey ⊢
    split_ifs with h1 h2 h3
    · have ha : r * 2 ^ 24 ≤ 2 ^ (s - 1) * 2 ^ 24 := mul_le_mul_right' h1.le _
      constructor <;> linarith [hkey, ha]
    · have hb : (2 ^ (s - 1) + 1) * 2 ^ 24 ≤ r * 2 ^ 24 :=
        mul_le_mul_right' (Nat.succ_le_of_lt h2) _
      have hc : r * 2 ^ 24 ≤ 2 ^ s * 2 ^ 24 := mul_le_mul_right' hrlt.le _
      constructor <;> linarith [hkey, hb, hc, hP24]
    · have hr2 : r = 2 ^ (s - 1) := le_antisymm (not_lt.mp h2) (not_lt.mp h1)
      constructor <;> [skip; skip] <;> rw [hr2] <;> linarith [hkey]
    · have hr2 : r = 2 ^ (s - 1) := le_antisymm (not_lt.mp h2) (not_lt.mp h1)
      constructor <;> rw [hr2] <;> linarith [hkey, hP24]

theorem round24_fst_le (n : Nat) (hn : n < 2 ^ 64) : (round24 n).1 ≤ 2 ^ 24 := by
  by_cases hk : bitlen 64 n ≤ 24
  · rw [round24_small n hk]
    dsimp only
    rcases Nat.eq_zero_or_pos n with h0 | h0
    · omega
    · obtain ⟨_, hhigh⟩ := bitlen_spec 64 n h0 hn
      have : (2 : Nat) ^ bitlen 64 n ≤ 2 ^ 24 :=
        Nat.pow_le_pow_right (by omega) hk
      omega
  · have hn0 : 0 < n := by
      rcases Nat.eq_zero_or_pos n with h0 | h0
      · exfalso
        apply hk
        rw [h0, bitlen_zero]
        omega
      · exact h0
    obtain ⟨_, hhigh⟩ := bitlen_spec 64 n hn0 hn
    have hq : n / 2 ^ (bitlen 64 n - 24) < 2 ^ 24 := by
      rw [Nat.div_lt_iff_lt_mul (Nat.two_pow_pos _)]
      calc n < 2 ^ bitlen 64 n := hhigh
        _ = 2 ^ (24 + (bitlen 64 n - 24)) := by congr 1; omega
        _ = 2 ^ 24 * 2 ^ (bitlen 64 n - 24) := pow_add 2 _ _
    rw [round24_large n hk]
    dsimp only
    split_ifs <;> omega

theorem rval_le_rval (p p' : Nat) (hp : p < 2 ^ 64) (hp' : p' < 2 ^ 64)
    (h : p * (2 ^ 24 + 1) ≤ p' * (2 ^ 24 - 1)) : rval p ≤ rval p' := by
  obtain ⟨hu, _⟩ := rval_bounds p hp
  obtain ⟨_, hl⟩ := rval_bounds p' hp'
  have h24 : (2 : Nat) ^ 24 = 16777216 := by norm_num
  rw [h24] at hu hl
  rw [show (2 : Nat) ^ 24 + 1 = 16777217 by norm_num,
    show (2 : Nat) ^ 24 - 1 = 16777215 by norm_num] at h
  have : rval p * 16777216 ≤ rval p' * 16777216 := by omega
  omega

theorem updateBound_eq_div (E cm : Nat) :
    updateBound E cm =
      min (rval ((round24 E).1 * cm) * 2 ^ (round24 E).2 / 2 ^ 24) 2147483647 := by
  unfold updateBound rval
  dsimp only
  generalize round24 E = ef
  generalize round24 (ef.1 * cm) = pr
  obtain ⟨m, s⟩ := ef
  obtain ⟨m2, s2⟩ := pr
  dsimp only
  congr 1
  by_cases ht : (0 : Int) ≤ (s2 : Int) + (s : Int) - 24
  · rw [if_pos ht]
    have hs : s2 + s = 24 + ((s2 : Int) + (s : Int) - 24).toNat := by omega
    rw [mul_assoc, ← pow_add, hs, pow_add]
    have hc : m2 * (2 ^ 24 * 2 ^ ((s2 : Int) + (s : Int) - 24).toNat) =
        m2 * 2 ^ ((s2 : Int) + (s : Int) - 24).toNat * 2 ^ 24 := by ring
    rw [hc, Nat.mul_div_cancel _ (Nat.two_pow_pos 24)]
  · rw [if_neg ht]
    have hd : (2 : Nat) ^ 24 = 2 ^ (s2 + s) * 2 ^ (-((s2 : Int) + (s : Int) - 24)).toNat := by
      rw [← pow_add]
      congr 1
      omega
    rw [mul_assoc, ← pow_add, hd, Nat.mul_comm m2 (2 ^ (s2 + s)),
      Nat.mul_div_mul_left _ _ (Nat.two_pow_pos (s2 + s))]

theorem updateBound_mono (E : Nat) (hE : E < 2 ^ 64) :
    updateBound E c90m ≤ updateBound E c95m := by
  rw [updateBound_eq_div, updateBound_eq_div]
  refine min_le_min ?_ le_rfl
  apply Nat.div_le_div_right
  apply Nat.mul_le_mul_right
  have hm := round24_fst_le E hE
  have h90 : (round24 E).1 * c90m < 2 ^ 64 := by
    have : (round24 E).1 * c90m ≤ 2 ^ 24 * 15099494 := by
      apply Nat.mul_le_mul hm
      decide
    omega
  have h95 : (round24 E).1 * c95m < 2 ^ 64 := by
    have : (round24 E).1 * c95m ≤ 2 ^ 24 * 15938355 := by
      apply Nat.mul_le_mul hm
      decide
    omega
  apply rval_le_rval _ _ h90 h95
  have hgap : c90m * (2 ^ 24 + 1) ≤ c95m * (2 ^ 24 - 1) := by decide
  calc (round24 E).1 * c90m * (2 ^ 24 + 1)
      = (round24 E).1 * (c90m * (2 ^ 24 + 1)) := by ring
    _ ≤ (round24 E).1 * (c95m * (2 ^ 24 - 1)) := Nat.mul_le_mul_left _ hgap
    _ = (round24 E).1 * c95m * (2 ^ 24 - 1) := by ring

theorem classifyUpdates_eq_spec (U E : Nat) :
    classifyUpdates U E = specUpdateMessage E U := by
  unfold classifyUpdates specUpdateMessage
  by_cases h0 : U = 0
  · simp [h0]
  · by_cases h1 : U ≤ updateBound E c90m
    · simp [h0, h1, Nat.pos_of_ne_zero h0]
    · by_cases h2 : U ≤ updateBound E c95m
      · simp [h0, h1, h2, not_le.mp h1]
      · simp [h0, h1, h2]

/-- Claim C1: for every call to `verify_updates` with expected updates
`E = concurrency * repetitions` (u32) and counted updates `U`, exactly the
spec's tier message is recorded: `U = 0` an error labelled "No Updates",
`0 < U ≤ floor(E * 0.90)` an error labelled "Too Few Updates",
`floor(E * 0.90) < U ≤ floor(E * 0.95)` a warning labelled "Too Few
Updates", and beyond `floor(E * 0.95)` nothing, the boundaries being the
source's truncating f32-to-i32 conversion (`updateBound`); the second
conjunct shows the two boundaries are ordered, so the four tiers partition
the possible counts. -/
theorem verify_updates_tier_messages (worlds_before worlds_after : Snapshot)
    (concurrency repetitions : Nat) (messages : List Message) :
    verify_updates worlds_before worlds_after concurrency repetitions messages =
      messages ++ specUpdateMessage (concurrency * repetitions % U32)
        (countUpdates worlds_before worlds_after) ∧
    updateBound (concurrency * repetitions % U32) c90m ≤
      updateBound (concurrency * repetitions % U32) c95m := by
  constructor
  · unfold verify_updates
    dsimp only
    rw [classifyUpdates_eq_spec]
  · apply updateBound_mono
    have h1 : concurrency * repetitions % U32 < U32 :=
      Nat.mod_lt _ (by unfold U32; exact Nat.two_pow_pos 32)
    have h2 : U32 < 2 ^ 64 := by
      unfold U32
      norm_num
    omega

/-- Claim C9: the tier classification is monotone in the counted updates:
if `U1` falls in the no-message tier then so does every `U2 > U1`. -/
theorem update_tiers_monotone (E U1 U2 : Nat) (hlt : U1 < U2)
    (hpass : classifyUpdates U1 E = []) : classifyUpdates U2 E = [] := by
  unfold classifyUpdates at hpass ⊢
  split_ifs at hpass with h0 h1 h2
  try simp at hpass
  split_ifs with g0 g1 g2
  · omega
  · omega
  · omega
  · rfl

theorem update_tiers_monotone_witness : classifyUpdates 2 0 = [] :=
  update_tiers_monotone 0 1 2 (by decide) (by decide)

/-- Claim C2: with before-count `B` and after-count `B + D`, a deficit
`D < expected_updates` records exactly one error labelled "Too Few Rows"
carrying the observed and expected counts, while `D ≥ expected_updates`
records nothing, even when `D` strictly overshoots. -/
theorem verify_updates_count_threshold (B D expected : Nat)
    (messages : List Message) (h : B + D < U32) :
    (D < expected →
      verify_updates_count B (B + D) expected messages =
        messages ++ [Message.mkError (MText.tooFewRows D expected) ("Too Few Rows")]) ∧
    (expected ≤ D →
      verify_updates_count B (B + D) expected messages = messages) := by
  have hdelta : u32sub (B + D) B = D := by
    unfold u32sub
    have h1 : B + D + U32 - B = D + U32 := by omega
    rw [h1, Nat.add_mod_right, Nat.mod_eq_of_lt (by omega)]
  constructor
  · intro hlt
    simp only [verify_updates_count, hdelta, if_pos hlt]
  · intro hge
    simp only [verify_updates_count, hdelta]
    rw [if_neg (by omega)]

theorem verify_updates_count_threshold_witness :
    verify_updates_count 5 6 2 [] =
      [Message.mkError (MText.tooFewRows 1 2) ("Too Few Rows")] ∧
    verify_updates_count 5 7 2 [] = [] := by
  constructor
  · exact (verify_updates_count_threshold 5 1 2 [] (by decide)).1 (by decide)
  · exact (verify_updates_count_threshold 5 2 2 [] (by decide)).2 (by decide)

/-- Claim C6 (counterexample): at `before = 1`, `after = 0` the delta the
code compares (`u32sub 0 1`) is not the absolute difference (which is `1`):
the absolute difference is below `expected = 2`, yet no message is
recorded. -/
theorem update_delta_not_absolute_cex :
    u32sub 0 1 ≠ absDelta 1 0 ∧ absDelta 1 0 < 2 ∧
    verify_updates_count 1 0 2 [] = [] := by
  refine ⟨by decide, by decide, by decide⟩

/-- Claim C6 (amended): the delta `verify_updates_count` compares against
`expected_updates` is the wrapping u32 difference `after - before`; it
equals the absolute difference of the two counts whenever
`after ≥ before`. -/
theorem verify_updates_count_delta_wrapped (before after expected : Nat)
    (messages : List Message) (_hb : before < U32) (ha : after < U32) :
    verify_updates_count before after expected messages =
      (if u32sub after before < expected then
        messages ++
          [Message.mkError (MText.tooFewRows (u32sub after before) expected) ("Too Few Rows")]
      else messages) ∧
    (before ≤ after → u32sub after before = absDelta before after) := by
  constructor
  · rfl
  · intro hle
    unfold u32sub absDelta
    have h1 : after + U32 - before = (after - before) + U32 := by omega
    rw [h1, Nat.add_mod_right, Nat.mod_eq_of_lt (by omega)]
    omega

theorem verify_updates_count_delta_wrapped_witness :
    verify_updates_count 3 5 9 [] =
      [Message.mkError (MText.tooFewRows 2 9) ("Too Few Rows")] ∧
    u32sub 5 3 = absDelta 3 5 := by
  have h := verify_updates_count_delta_wrapped 3 5 9 [] (by decide) (by decide)
  constructor
  · rw [h.1]
    decide
  · exact h.2 (by decide)

/-- Claim C7: the command builder produces exactly the fixed header
arguments, `--latency`, the duration flag, the concurrency flag, the
8-second timeout, a thread count `min(concurrency, available_parallelism)`
and the target URL, in that order; in particular for duration 15 and
concurrency 50 the thread flag is "4" under host parallelism 4 and "50"
under host parallelism 100. -/
theorem get_wrk_command_argument_order :
    (∀ (numCpus : Nat) (url : String) (duration concurrency : Nat),
      get_wrk_command numCpus url duration concurrency =
        ["wrk", "-H", "Host: tfb-server", "-H",
         "Accept: application/json,text/html;q=0.9,application/xhtml+xml;q=0.9,application/xml;q=0.8,*/*;q=0.7",
         "-H", "Connection: keep-alive", "--latency",
         "-d", toString duration, "-c", toString concurrency,
         "--timeout", "8", "-t", toString (min concurrency numCpus), url]) ∧
    (∀ url : String,
      (get_wrk_command 4 url 15 50)[14]? = some ("-t") ∧
      (get_wrk_command 4 url 15 50)[15]? = some ("4") ∧
      (get_wrk_command 100 url 15 50)[15]? = some ("50")) := by
  constructor
  · intro numCpus url duration concurrency
    rfl
  · intro url
    exact ⟨rfl, rfl, rfl⟩

/-- Claim C8: for every URL and non-empty configured concurrency-level
list, `retrieve_benchmark_commands` returns exactly a primer command with
duration 5 and concurrency 8, a warmup command with duration 15 and the
maximum configured level, and one benchmark command per configured level
with duration 15, in the configured order. -/
theorem retrieve_benchmark_commands_shape (numCpus : Nat) (url : String)
    (concurrency_levels : List Nat) (m : Nat)
    (hmax : iterMax concurrency_levels = some m) :
    retrieve_benchmark_commands numCpus concurrency_levels url =
      some
        { primer_command := get_wrk_command numCpus url 5 8
          warmup_command := get_wrk_command numCpus url 15 m
          benchmark_commands :=
            concurrency_levels.map (fun concurrency => get_wrk_command numCpus url 15 concurrency) } := by
  unfold retrieve_benchmark_commands
  rw [hmax]

theorem retrieve_benchmark_commands_shape_witness :
    iterMax [8, 16, 32] = some 32 ∧
    retrieve_benchmark_commands 4 [8, 16, 32] ("http://u/") =
      some
        { primer_command := get_wrk_command 4 ("http://u/") 5 8
          warmup_command := get_wrk_command 4 ("http://u/") 15 32
          benchmark_commands :=
            [8, 16, 32].map (fun concurrency => get_wrk_command 4 ("http://u/") 15 concurrency) } :=
  ⟨by decide, retrieve_benchmark_commands_shape 4 ("http://u/") [8, 16, 32] 32 (by decide)⟩

/-- Claim C10: a non-empty `concurrency_levels` list is a precondition of
the public interface: on an empty list both `verify` and
`retrieve_benchmark_commands` panic (the `.unwrap()` of the absent maximum)
instead of returning a result, and on every non-empty list the unwrap
cannot panic. -/
theorem concurrency_levels_nonempty_precondition (numCpus : Nat)
    (env : VerifyEnv) (url : String) (concurrency_levels : List Nat) :
    (concurrency_levels = [] →
      retrieve_benchmark_commands numCpus concurrency_levels url = none ∧
      verify env concurrency_levels url = VerifyResult.panicked) ∧
    (concurrency_levels ≠ [] →
      retrieve_benchmark_commands numCpus concurrency_levels url ≠ none ∧
      verify env concurrency_levels url ≠ VerifyResult.panicked) := by
  constructor
  · rintro rfl
    exact ⟨rfl, rfl⟩
  · intro hne
    obtain ⟨x, xs, rfl⟩ : ∃ x xs, concurrency_levels = x :: xs := by
      cases concurrency_levels with
      | nil => exact absurd rfl hne
      | cons x xs => exact ⟨x, xs, rfl⟩
    have hmax : iterMax (x :: xs) =
        some (match iterMax xs with | none => x | some m => max x m) := rfl
    constructor
    · unfold retrieve_benchmark_commands
      rw [hmax]
      simp
    · unfold verify
      rw [hmax]
      cases env.fetchHeaders <;> simp

theorem concurrency_levels_nonempty_precondition_witness :
    (retrieve_benchmark_commands 4 [] ("u") = none ∧
      verify envTrivial [] ("u") = VerifyResult.panicked) ∧
    retrieve_benchmark_commands 4 [8] ("u") ≠ none := by
  refine ⟨(concurrency_levels_nonempty_precondition 4 envTrivial ("u") []).1 rfl, ?_⟩
  exact ((concurrency_levels_nonempty_precondition 4 envTrivial ("u") [8]).2 (by decide)).1

/-- Claim C4: `verify_updates` counts as updated exactly the row
identifiers in the pre-load key range `0..worlds_before.len()` that are
present in both snapshots with differing content — each contributes one,
and identifiers absent from either snapshot or with identical content
contribute nothing, for arbitrary snapshot key sets. -/
theorem countUpdates_counts_changed_rows (worlds_before worlds_after : Snapshot) :
    countUpdates worlds_before worlds_after =
      ((List.range worlds_before.size).filter
        (fun index => decide (updatedAt worlds_before worlds_after (i32ofNat index)))).length := by
  rw [countUpdates, ← List.countP_eq_length_filter]
  apply List.countP_congr
  intro i _hi
  rcases hb : worlds_before.get (i32ofNat i) with _ | b <;>
    rcases ha : worlds_after.get (i32ofNat i) with _ | a <;>
    simp [updatedAt, hb, ha]

/-! ### Orchestrator lemmas -/

theorem caseResult_snd (env : VerifyEnv)
    (concurrency expected_queries expected_rows expected_updates : Nat)
    (url tc : String) :
    (caseResult env concurrency expected_queries expected_rows expected_updates url tc).2 =
      if env.tqc tc 1 500 = 500 then
        [DbCall.verifyQueriesCount (url ++ "20") ("world") concurrency 2 expected_queries,
         DbCall.verifyRowsCount (url ++ "20") ("world") concurrency 2 expected_rows 1,
         DbCall.verifyUpdatesCount (url ++ "20") ("world") concurrency 2 expected_updates,
         DbCall.verifyUpdates (url ++ "20") concurrency 2]
      else [] := by
  unfold caseResult
  dsimp only
  split_ifs <;> rfl

theorem flatten_map_ite {α β : Type} (l : List α) (p : α → Prop) [DecidablePred p]
    (B : List β) :
    (l.map (fun x => if p x then B else [])).flatten =
      (List.replicate (l.countP (fun x => decide (p x))) B).flatten := by
  induction l with
  | nil => rfl
  | cons x xs ih =>
    simp only [List.map_cons, List.flatten_cons, List.countP_cons, ih]
    by_cases h : p x
    · simp [h, List.replicate_succ]
    · simp [h]

theorem verify_ok_eq (env : VerifyEnv) (levels : List Nat) (url : String)
    (m : Nat) (hdrs : List String) (hmax : iterMax levels = some m)
    (hok : env.fetchHeaders = Except.ok hdrs) :
    verify env levels url =
      VerifyResult.ok
        (env.verifyHeadersMsgs ++
          ((testCases.map
            (caseResult env m (20 * 2 * m % U32 / 20) (20 * 2 * m % U32)
              (20 * 2 * m % U32) url)).map Prod.fst).flatten)
        ((testCases.map
            (caseResult env m (20 * 2 * m % U32 / 20) (20 * 2 * m % U32)
              (20 * 2 * m % U32) url)).map Prod.snd).flatten := by
  simp only [verify, hmax, hok]

/-- Claim C3: in a completed `verify` invocation, the database-delta checks
run exactly once — they are invoked iff the current test case's translated
expected length equals `max` (500), over the fixed ordered test-case set,
with load-trigger URL `url ++ "20"`, concurrency equal to the maximum
configured level and repetitions 2, assuming the `translate_query_count`
collaborator maps exactly one test case to 500. -/
theorem verify_delta_checks_once (env : VerifyEnv) (levels : List Nat)
    (url : String) (m : Nat) (hdrs : List String)
    (hmax : iterMax levels = some m)
    (hok : env.fetchHeaders = Except.ok hdrs)
    (hone : (testCases.filter (fun tc => decide (env.tqc tc 1 500 = 500))).length = 1) :
    traceOf (verify env levels url) =
      [DbCall.verifyQueriesCount (url ++ "20") ("world") m 2 (20 * 2 * m % U32 / 20),
       DbCall.verifyRowsCount (url ++ "20") ("world") m 2 (20 * 2 * m % U32) 1,
       DbCall.verifyUpdatesCount (url ++ "20") ("world") m 2 (20 * 2 * m % U32),
       DbCall.verifyUpdates (url ++ "20") m 2] := by
  rw [verify_ok_eq env levels url m hdrs hmax hok]
  rw [← List.countP_eq_length_filter] at hone
  simp only [traceOf, List.map_map, Function.comp_def, caseResult_snd]
  rw [flatten_map_ite testCases (fun tc => env.tqc tc 1 500 = 500), hone]
  simp

theorem verify_delta_checks_once_witness :
    traceOf (verify envFull [8, 16, 32] ("u")) =
      [DbCall.verifyQueriesCount ("u" ++ "20") ("world") 32 2 (20 * 2 * 32 % U32 / 20),
       DbCall.verifyRowsCount ("u" ++ "20") ("world") 32 2 (20 * 2 * 32 % U32) 1,
       DbCall.verifyUpdatesCount ("u" ++ "20") ("world") 32 2 (20 * 2 * 32 % U32),
       DbCall.verifyUpdates ("u" ++ "20") 32 2] :=
  verify_delta_checks_once envFull [8, 16, 32] ("u") 32 [] (by decide) rfl (by decide)

/-- Claim C5 (counterexample): with the header fetch succeeding and every
per-test-case body fetch hitting a transport failure, `verify` does not
propagate a typed error out (as the claim states it must): it completes
with an `ok` report, the failures recorded as message entries. -/
theorem body_fetch_failure_not_propagated_cex :
    envBodyFail.fetchBody ("u" ++ "2") =
      Except.error (TransportError.failure 7) ∧
    verify envBodyFail [1] ("u") =
      VerifyResult.ok
        [Message.mkError (MText.transport ("u2")) ("Transport"),
         Message.mkError (MText.transport ("u0")) ("Transport"),
         Message.mkError (MText.transport ("ufoo")) ("Transport"),
         Message.mkError (MText.transport ("u501")) ("Transport"),
         Message.mkError (MText.transport ("u")) ("Transport")] [] :=
  ⟨rfl, by decide⟩

theorem mem_caseResult_fst_transport (env : VerifyEnv)
    (concurrency expected_queries expected_rows expected_updates : Nat)
    (url tc : String) (e : TransportError)
    (herr : env.fetchBody (url ++ tc) = Except.error e) :
    Message.mkError (MText.transport (url ++ tc)) ("Transport") ∈
      (caseResult env concurrency expected_queries expected_rows expected_updates url tc).1 := by
  unfold caseResult get_response_body
  dsimp only
  rw [herr]
  split_ifs <;> simp

/-- Claim C5 (amended): a transport failure of the header fetch propagates
as a typed error out of `verify`, aborting the run; body-fetch transport
failures do not propagate — they are recorded as message entries — and once
the header fetch has succeeded `verify` neither fails nor panics, with the
header-policy messages and every message produced by the per-test-case
checks (body policy, query-count and update-count mismatches) appearing in
the final report. -/
theorem verify_transport_error_policy (env : VerifyEnv) (levels : List Nat)
    (url : String) (m : Nat) (hmax : iterMax levels = some m) :
    (∀ e, env.fetchHeaders = Except.error e →
      verify env levels url = VerifyResult.failed e) ∧
    (∀ hdrs, env.fetchHeaders = Except.ok hdrs →
      (∀ e, verify env levels url ≠ VerifyResult.failed e) ∧
      verify env levels url ≠ VerifyResult.panicked ∧
      (∀ tc ∈ testCases, ∀ e, env.fetchBody (url ++ tc) = Except.error e →
        Message.mkError (MText.transport (url ++ tc)) ("Transport") ∈
          messagesOf (verify env levels url)) ∧
      (∀ x ∈ env.verifyHeadersMsgs, x ∈ messagesOf (verify env levels url)) ∧
      (∀ tc ∈ testCases,
        ∀ x ∈ (caseResult env m (20 * 2 * m % U32 / 20) (20 * 2 * m % U32)
            (20 * 2 * m % U32) url tc).1,
          x ∈ messagesOf (verify env levels url))) := by
  constructor
  · intro e he
    simp only [verify, hmax, he]
  · intro hdrs hok
    rw [verify_ok_eq env levels url m hdrs hmax hok]
    refine ⟨?_, ?_, ?_, ?_, ?_⟩
    · intro e h
      exact VerifyResult.noConfusion h
    · intro h
      exact VerifyResult.noConfusion h
    · intro tc htc e herr
      simp only [messagesOf]
      apply List.mem_append_right
      simp only [List.map_map]
      apply List.mem_flatten.mpr
      refine ⟨(caseResult env m (20 * 2 * m % U32 / 20) (20 * 2 * m % U32)
        (20 * 2 * m % U32) url tc).1, ?_, ?_⟩
      · have hmem := List.mem_map_of_mem
          (Prod.fst ∘ caseResult env m (20 * 2 * m % U32 / 20) (20 * 2 * m % U32)
            (20 * 2 * m % U32) url) htc
        simpa using hmem
      · exact mem_caseResult_fst_transport env m _ _ _ url tc e herr
    · intro x hx
      simp only [messagesOf]
      exact List.mem_append_left _ hx
    · intro tc htc x hx
      simp only [messagesOf]
      apply List.mem_append_right
      simp only [List.map_map]
      apply List.mem_flatten.mpr
      refine ⟨(caseResult env m (20 * 2 * m % U32 / 20) (20 * 2 * m % U32)
        (20 * 2 * m % U32) url tc).1, ?_, hx⟩
      have hmem := List.mem_map_of_mem
        (Prod.fst ∘ caseResult env m (20 * 2 * m % U32 / 20) (20 * 2 * m % U32)
          (20 * 2 * m % U32) url) htc
      simpa using hmem

theorem verify_transport_error_policy_witness :
    verify envHdrFail [1] ("u") = VerifyResult.failed (TransportError.failure 3) ∧
    verify envBodyFail [1] ("u") ≠ VerifyResult.failed (TransportError.failure 7) ∧
    Message.mkError (MText.transport ("u" ++ "2")) ("Transport") ∈
      messagesOf (verify envBodyFail [1] ("u")) := by
  have h1 := verify_transport_error_policy envHdrFail [1] ("u") 1 (by decide)
  have h2 := verify_transport_error_policy envBodyFail [1] ("u") 1 (by decide)
  refine ⟨h1.1 (TransportError.failure 3) rfl, ?_, ?_⟩
  · exact ((h2.2 [] rfl).1) (TransportError.failure 7)
  · exact (h2.2 [] rfl).2.2.1 ("2") (by decide) (TransportError.failure 7) rfl
